import Mathlib

/-!
# RadarNav proximity/zone evaluation engine: a shallow embedding

This file embeds the real-time proximity/zone evaluation engine of the
RadarNav repository (src/app.js and the variant files under src/unnamed)
in Lean 4 and proves properties of it.

Modelling conventions:

* JavaScript numbers produced by the geometry kernel are modelled by
  `JNum := Option ℚ`: `some q` is a finite value, `none` stands for a
  non-finite value (`NaN`; the haversine/bearing formulas map any
  non-finite input to `NaN`, since `sin`/`cos` of a non-finite argument
  is `NaN`).  Every JS comparison `x < y`, `x > y`, `x <= y` evaluates
  to `false` when an operand is `NaN`, which the `jgt`/`jle` helpers
  reproduce.
* The transcendental haversine distance and initial-bearing formulas
  (`distanceMeters`, `bearing` in src/app.js) are kept abstract: the
  development is parametric in functions
  `fdist fbearing : ℚ → ℚ → ℚ → ℚ → ℚ` giving their value on finite
  inputs.  All theorems hold for every interpretation, so nothing
  depends on numeric properties of the geometry; witnesses instantiate
  them with simple computable stand-ins.
* The per-camera throttle ledger (`perCameraLastAlert`, a JS `Map` keyed
  by the string `r.lat + ',' + r.lon`) is modelled by an association
  list keyed by the coordinate pair; `Map.get(k) || 0` is `ledgerGet`,
  and `Map.set` is modelled by consing (lookup finds the newest entry).
* Times (`Date.now()` values, milliseconds) are integers.
-/

namespace RadarNav

/- The Batteries rational-number arithmetic operations are marked
irreducible, which blocks `decide` on concrete rational computations;
restore the default reducibility for this file. -/
attribute [local semireducible] Rat.add Rat.sub Rat.mul Rat.inv

/-! ## JavaScript numeric helpers -/

/-- Truncation toward zero, as JavaScript's `%` operator uses
(`Int` division truncates toward zero and `q.den` is positive). -/
def jsTrunc (q : ℚ) : ℤ := q.num / (q.den : ℤ)

/-- JavaScript's `%` (remainder) on numbers, for a non-zero divisor. -/
def jsMod (a b : ℚ) : ℚ := a - b * (jsTrunc (a / b) : ℚ)

/-- `clamp` from src/app.js line 111: `(v, a, b) => Math.max(a, Math.min(b, v))`. -/
def clampQ (v a b : ℚ) : ℚ := max a (min b v)

/-- A JavaScript number that may be non-finite: `none` is `NaN`
(or another non-finite value propagated through the geometry kernel). -/
abbrev JNum := Option ℚ

/-- JS `x > c`: `false` whenever `x` is `NaN`. -/
def jgt : JNum → ℚ → Bool
  | some a, c => decide (c < a)
  | none, _ => false

/-- JS `x <= c`: `false` whenever `x` is `NaN`. -/
def jle : JNum → ℚ → Bool
  | some a, c => decide (a ≤ c)
  | none, _ => false

/-- `distanceMeters(userLat, userLon, r.lat, r.lon)` (src/app.js lines 84-96):
haversine on finite inputs (abstracted as `fdist`), `NaN` as soon as a
coordinate is non-finite. -/
def jdist (fdist : ℚ → ℚ → ℚ → ℚ → ℚ) (ulat ulon : ℚ) : JNum → JNum → JNum
  | some rlat, some rlon => some (fdist ulat ulon rlat rlon)
  | _, _ => none

/-- `bearing(userLat, userLon, r.lat, r.lon)` (src/app.js lines 99-108),
abstracted as `fbearing` on finite inputs, `NaN` otherwise. -/
def jbearingTo (fbearing : ℚ → ℚ → ℚ → ℚ → ℚ) (ulat ulon : ℚ) : JNum → JNum → JNum
  | some rlat, some rlon => some (fbearing ulat ulon rlat rlon)
  | _, _ => none

/-- The angular-difference computation of src/app.js lines 410-411:
`let angleDiff = Math.abs((brg - headingDeg + 360) % 360);
 if (angleDiff > 180) angleDiff = 360 - angleDiff;`
`NaN` propagates. -/
def angleDiffJS (brg : JNum) (headingDeg : ℚ) : JNum :=
  match brg with
  | none => none
  | some b =>
    let a0 := |jsMod (b - headingDeg + 360) 360|
    some (if 180 < a0 then 360 - a0 else a0)

/-! ## Hazard catalog records and the throttle ledger -/

/-- One camera record as loaded by `loadSCDB` (src/app.js lines 197-203):
coordinates and the `flg` kind field (`1` = average-zone camera,
otherwise fixed).  Coordinates are `JNum` so that a non-finite record
that slips past load-time validation can be expressed. -/
structure Radar where
  lat : JNum
  lon : JNum
  flg : ℤ
deriving DecidableEq

/-- The JS throttle-map key `r.lat + ',' + r.lon` (src/app.js line 417),
modelled as the coordinate pair itself (the string encoding of a pair
of numbers is injective). -/
abbrev CamKey := JNum × JNum

def Radar.key (r : Radar) : CamKey := (r.lat, r.lon)

/-- `perCameraLastAlert`, as an association list (newest binding first). -/
abbrev Ledger := List (CamKey × ℤ)

/-- `perCameraLastAlert.get(key) || 0`. -/
def ledgerGet (k : CamKey) : Ledger → ℤ
  | [] => 0
  | (k1, v) :: t => if k1 = k then v else ledgerGet k t

/-- The alert event fired through `triggerCameraAlert(r, Math.round(d))`
(src/app.js line 422). -/
structure HazardAlert where
  cam : Radar
  distM : JNum
deriving DecidableEq

/-! ## Directional alert evaluator (src/app.js `detectApproachingCameras`, lines 397-424) -/

/-- One iteration of the `detectApproachingCameras` loop body for a single
radar `r`: the distance filter (`d > ALERT_DISTANCE_M` → skip), the
ahead-angle filter (`angleDiff > 60` → skip), the per-camera throttle
(`now - lastTs < ALERT_THROTTLE_MS` → skip), else fire and record `now`.
`ALERT_DISTANCE_M = 1000`, `ALERT_THROTTLE_MS = 5000` (CONFIG, lines 15-16). -/
def evalRadar (fdist fbearing : ℚ → ℚ → ℚ → ℚ → ℚ) (ulat ulon heading : ℚ)
    (now : ℤ) (led : Ledger) (r : Radar) : Option HazardAlert × Ledger :=
  let d := jdist fdist ulat ulon r.lat r.lon
  if jgt d 1000 then (none, led)
  else if jgt (angleDiffJS (jbearingTo fbearing ulat ulon r.lat r.lon) heading) 60 then (none, led)
  else if now - ledgerGet r.key led < 5000 then (none, led)
  else (some ⟨r, d⟩, (r.key, now) :: led)

/-- Whether the loop body fires for `r` against ledger `led`. -/
def qualifies (fdist fbearing : ℚ → ℚ → ℚ → ℚ → ℚ) (ulat ulon heading : ℚ)
    (now : ℤ) (led : Ledger) (r : Radar) : Bool :=
  !jgt (jdist fdist ulat ulon r.lat r.lon) 1000
    && !jgt (angleDiffJS (jbearingTo fbearing ulat ulon r.lat r.lon) heading) 60
    && decide (5000 ≤ now - ledgerGet r.key led)

/-- `detectApproachingCameras(userLat, userLon, headingDeg)`
(src/app.js lines 397-424): scans the radar array in order, firing an
alert for each radar that passes all filters, threading the throttle
ledger through.  There is no `break` after a fired alert.  Returns the
fired alerts in array order together with the updated ledger. -/
def detectApproachingCameras (fdist fbearing : ℚ → ℚ → ℚ → ℚ → ℚ)
    (ulat ulon heading : ℚ) (now : ℤ) :
    List Radar → Ledger → List HazardAlert × Ledger
  | [], led => ([], led)
  | r :: rest, led =>
    let p := evalRadar fdist fbearing ulat ulon heading now led r
    let q := detectApproachingCameras fdist fbearing ulat ulon heading now rest p.2
    (p.1.toList ++ q.1, q.2)

/-- The per-call inputs of one position update reaching the evaluator:
user position, the heading passed as `rotation`, and `Date.now()`. -/
structure CallIn where
  ulat : ℚ
  ulon : ℚ
  heading : ℚ
  now : ℤ
deriving DecidableEq

/-- A sequence of evaluator calls (one per ingested sample), threading
the per-camera ledger. -/
def runCalls (fdist fbearing : ℚ → ℚ → ℚ → ℚ → ℚ) (radars : List Radar) :
    List CallIn → Ledger → List HazardAlert × Ledger
  | [], led => ([], led)
  | c :: cs, led =>
    let p := detectApproachingCameras fdist fbearing c.ulat c.ulon c.heading c.now radars led
    let q := runCalls fdist fbearing radars cs p.2
    (p.1 ++ q.1, q.2)

/-- The number of emitted alerts whose camera has throttle key `k`. -/
def keyAlertCount (k : CamKey) (as : List HazardAlert) : ℕ :=
  as.countP (fun a => a.cam.key = k)

/-! ## Visibility window (src/app.js `refreshVisibleMarkers`, lines 260-302) -/

/-- The visibility test of the marker loop: `d <= CAMERA_VISIBLE_M`
with `CAMERA_VISIBLE_M = 10000` (CONFIG, line 14); `false` on a
non-finite distance. -/
def camVisible (fdist : ℚ → ℚ → ℚ → ℚ → ℚ) (ulat ulon : ℚ) (r : Radar) : Bool :=
  jle (jdist fdist ulat ulon r.lat r.lon) 10000

/-- The first loop of `refreshVisibleMarkers` (lines 265-292), scanning
radar `i` (then `i+1`, ...): a visible radar's index is added to both
`visibleIndices` (first component) and the marker map `visibleMarkers`
(second component); a non-visible radar's index is removed from the
marker map. -/
def refreshScan (fdist : ℚ → ℚ → ℚ → ℚ → ℚ) (ulat ulon : ℚ) :
    List Radar → ℕ → Finset ℕ → Finset ℕ × Finset ℕ
  | [], _, vis => (∅, vis)
  | r :: rest, i, vis =>
    if camVisible fdist ulat ulon r then
      let p := refreshScan fdist ulat ulon rest (i + 1) (insert i vis)
      (insert i p.1, p.2)
    else
      let p := refreshScan fdist ulat ulon rest (i + 1) (vis.erase i)
      (p.1, p.2)

/-- `refreshVisibleMarkers(userLat, userLon)` acting on the index set of
`visibleMarkers`: early return when the catalog is empty (line 261),
else run the scan loop and then the cleanup loop (lines 295-301), which
deletes every index not in `visibleIndices`. -/
def refreshVisibleMarkers (fdist : ℚ → ℚ → ℚ → ℚ → ℚ) (ulat ulon : ℚ)
    (radars : List Radar) (vis : Finset ℕ) : Finset ℕ :=
  if radars.isEmpty then vis
  else
    let p := refreshScan fdist ulat ulon radars 0 vis
    p.2.filter (fun idx => idx ∈ p.1)

/-! ## Average-zone membership test (src/app.js `detectAvgZoneProgress`, lines 526-546) -/

/-- One corridor of `avg_zones.json`: straight segment from `start` to
`end` with a speed limit.  Corridor records are validated at load time,
so coordinates are finite. -/
structure AvgZone where
  slat : ℚ
  slon : ℚ
  elat : ℚ
  elon : ℚ
  limit : ℚ
deriving DecidableEq

/-- `total = distanceMeters(z.start, z.end)` (line 530). -/
def zoneTotal (fdist : ℚ → ℚ → ℚ → ℚ → ℚ) (z : AvgZone) : ℚ :=
  fdist z.slat z.slon z.elat z.elon

/-- `dStart = distanceMeters(z.start, user)` (line 531). -/
def zoneDStart (fdist : ℚ → ℚ → ℚ → ℚ → ℚ) (z : AvgZone) (plat plon : ℚ) : ℚ :=
  fdist z.slat z.slon plat plon

/-- `dEnd = distanceMeters(z.end, user)` (line 532). -/
def zoneDEnd (fdist : ℚ → ℚ → ℚ → ℚ → ℚ) (z : AvgZone) (plat plon : ℚ) : ℚ :=
  fdist z.elat z.elon plat plon

/-- `gap = Math.abs((dStart + dEnd) - total)` (line 533). -/
def zoneGap (fdist : ℚ → ℚ → ℚ → ℚ → ℚ) (z : AvgZone) (plat plon : ℚ) : ℚ :=
  |zoneDStart fdist z plat plon + zoneDEnd fdist z plat plon - zoneTotal fdist z|

/-- The corridor membership test (line 534):
`gap < 60 && dStart <= total + 30`. -/
def onCorridor (fdist : ℚ → ℚ → ℚ → ℚ → ℚ) (z : AvgZone) (plat plon : ℚ) : Bool :=
  decide (zoneGap fdist z plat plon < 60)
    && decide (zoneDStart fdist z plat plon ≤ zoneTotal fdist z + 30)

/-- `pct = clamp(dStart / total, 0, 1)` (line 535).  Rational division
stands in for JS float division; it agrees with it whenever
`total ≠ 0`. -/
def zonePct (fdist : ℚ → ℚ → ℚ → ℚ → ℚ) (z : AvgZone) (plat plon : ℚ) : ℚ :=
  clampQ (zoneDStart fdist z plat plon / zoneTotal fdist z) 0 1

/-- The corridor scan of `detectAvgZoneProgress` (lines 528-539): first
matching corridor wins (`break`), carrying its progress fraction. -/
def detectAvgZoneProgress (fdist : ℚ → ℚ → ℚ → ℚ → ℚ) :
    List AvgZone → ℚ → ℚ → Option (AvgZone × ℚ)
  | [], _, _ => none
  | z :: rest, plat, plon =>
    if onCorridor fdist z plat plon then some (z, zonePct fdist z plat plon)
    else detectAvgZoneProgress fdist rest plat plon

/-- The same scan keeping the array index of the matched corridor. -/
def findZoneIdxFrom (fdist : ℚ → ℚ → ℚ → ℚ → ℚ) :
    List AvgZone → ℚ → ℚ → ℕ → Option (ℕ × AvgZone × ℚ)
  | [], _, _, _ => none
  | z :: rest, plat, plon, i =>
    if onCorridor fdist z plat plon then some (i, z, zonePct fdist z plat plon)
    else findZoneIdxFrom fdist rest plat plon (i + 1)

def findZoneIdx (fdist : ℚ → ℚ → ℚ → ℚ → ℚ) (zones : List AvgZone)
    (plat plon : ℚ) : Option (ℕ × AvgZone × ℚ) :=
  findZoneIdxFrom fdist zones plat plon 0

/-! ## Average-zone tracker state machine

Modelled from the spec: the Average-Zone Tracker of §4.5 (Idle/InZone
states, speed-sample buffer, session summary on exit).  The repository
declares the tracker state (`avgState = { active: null, samples: [],
started: 0 }`, src/unnamed/part_005 line 320) and names its transition
functions (`avgStateEnter`, `avgStateExit`, part_005 line 677), but the
bodies of those functions are elided from the sources ("remain exactly
the same as in your original app.js", which is not in the repository),
so the transitions below follow the spec's words. -/

/-- Zone tracker output events (spec §4.5): `ZoneEntered`,
`ZoneProgress`, `ZoneExited`. -/
inductive ZoneEvent where
  | entered (corridorIdx : ℕ) (limitKmh : ℚ)
  | progress (pct currentKmh limitKmh overBy : ℚ)
  | exited (corridorIdx : ℕ) (avgKmh limitKmh : ℚ)
deriving DecidableEq

/-- An active corridor traversal (`zoneSession` of the spec's
`EngineState`). -/
structure AvgSession where
  corridorIdx : ℕ
  limitKmh : ℚ
  enteredAtMs : ℤ
  speedSamples : List ℚ
deriving DecidableEq

/-- Modelled from the spec: `avgKmh = mean(speedSamples)` (0 if empty). -/
def meanKmh (l : List ℚ) : ℚ := if l.isEmpty then 0 else l.sum / l.length

/-- Modelled from the spec: cap the sample buffer at the last 80
samples, dropping the oldest. -/
def capSamples (l : List ℚ) : List ℚ :=
  if l.length ≤ 80 then l else l.drop (l.length - 80)

/-- Modelled from the spec: one step of the Average-Zone Tracker state
machine (§4.5).  Idle→InZone on first membership (clear samples, emit
`ZoneEntered`); InZone on same corridor appends the speed and emits
`ZoneProgress`; membership lost emits `ZoneExited` with the mean speed
and clears the session; a different corridor matching performs
exit-then-enter atomically. -/
def avgZoneStep (fdist : ℚ → ℚ → ℚ → ℚ → ℚ) (zones : List AvgZone)
    (plat plon speedKmh : ℚ) (nowMs : ℤ) (sess : Option AvgSession) :
    List ZoneEvent × Option AvgSession :=
  match findZoneIdx fdist zones plat plon, sess with
  | none, none => ([], none)
  | none, some s => ([.exited s.corridorIdx (meanKmh s.speedSamples) s.limitKmh], none)
  | some (i, z, _), none =>
    ([.entered i z.limit], some ⟨i, z.limit, nowMs, []⟩)
  | some (i, z, pct), some s =>
    if i = s.corridorIdx then
      ([.progress pct speedKmh z.limit (speedKmh - z.limit)],
        some { s with speedSamples := capSamples (s.speedSamples ++ [speedKmh]) })
    else
      ([.exited s.corridorIdx (meanKmh s.speedSamples) s.limitKmh, .entered i z.limit],
        some ⟨i, z.limit, nowMs, []⟩)

/-- A sequence of tracker steps over position/speed/time samples. -/
def runAvgZone (fdist : ℚ → ℚ → ℚ → ℚ → ℚ) (zones : List AvgZone) :
    List (ℚ × ℚ × ℚ × ℤ) → Option AvgSession → List ZoneEvent × Option AvgSession
  | [], sess => ([], sess)
  | (plat, plon, speed, t) :: rest, sess =>
    let p := avgZoneStep fdist zones plat plon speed t sess
    let q := runAvgZone fdist zones rest p.2
    (p.1 ++ q.1, q.2)

/-! ## The part_007 variant: `isRadarAhead` and `findNearestRelevantRadar`
(src/unnamed/part_007 lines 95-104 and 224-249) -/

/-- `angleDiffAbs(a, b)` (part_007 lines 95-99):
`let d = Math.abs(a - b) % 360; if (d > 180) d = 360 - d;`. -/
def angleDiffAbs (a b : ℚ) : ℚ :=
  let d := jsMod |a - b| 360
  if 180 < d then 360 - d else d

/-- A camera record of the part_007 variant with finite coordinates. -/
structure Radar007 where
  lat : ℚ
  lon : ℚ
  flg : ℤ
deriving DecidableEq

/-- `isRadarAhead(radar, heading)` (part_007 lines 224-236): compare the
bearing to the radar against the device heading when one is available
(`heading != null && !isNaN(heading)`, modelled by `some`), else
against a heading derived from the last position when one exists, else
`return true` (permissive fallback).  `AHEAD_ANGLE_DEG = 50`
(part_007 line 7). -/
def isRadarAhead (fbearing : ℚ → ℚ → ℚ → ℚ → ℚ) (ulat ulon : ℚ)
    (heading : Option ℚ) (lastPos : Option (ℚ × ℚ)) (rlat rlon : ℚ) : Bool :=
  let br := fbearing ulat ulon rlat rlon
  match heading with
  | some h => decide (angleDiffAbs br h ≤ 50)
  | none =>
    match lastPos with
    | some lp => decide (angleDiffAbs br (fbearing lp.1 lp.2 ulat ulon) ≤ 50)
    | none => true

/-- The scan loop of `findNearestRelevantRadar` (part_007 lines
238-249): skip a radar farther than `distanceLimitKm`, skip one not
ahead, otherwise keep the strictly closer of it and the best so far
(`minKm` starts at `Infinity`, modelled by `acc = none`). -/
def findNearestGo (fdistKm fbearing : ℚ → ℚ → ℚ → ℚ → ℚ) (ulat ulon : ℚ)
    (heading : Option ℚ) (lastPos : Option (ℚ × ℚ)) (limitKm : ℚ) :
    List Radar007 → Option (Radar007 × ℚ) → Option (Radar007 × ℚ)
  | [], acc => acc
  | r :: rest, acc =>
    let dKm := fdistKm ulat ulon r.lat r.lon
    if limitKm < dKm then
      findNearestGo fdistKm fbearing ulat ulon heading lastPos limitKm rest acc
    else if !isRadarAhead fbearing ulat ulon heading lastPos r.lat r.lon then
      findNearestGo fdistKm fbearing ulat ulon heading lastPos limitKm rest acc
    else if (match acc with | none => true | some p => decide (dKm < p.2)) then
      findNearestGo fdistKm fbearing ulat ulon heading lastPos limitKm rest (some (r, dKm))
    else
      findNearestGo fdistKm fbearing ulat ulon heading lastPos limitKm rest acc

/-- `findNearestRelevantRadar(distanceLimitKm)` (part_007 lines 238-249). -/
def findNearestRelevantRadar (fdistKm fbearing : ℚ → ℚ → ℚ → ℚ → ℚ)
    (ulat ulon : ℚ) (heading : Option ℚ) (lastPos : Option (ℚ × ℚ))
    (limitKm : ℚ) (radars : List Radar007) : Option (Radar007 × ℚ) :=
  findNearestGo fdistKm fbearing ulat ulon heading lastPos limitKm radars none

/-! ## Heading resolution (src/app.js `handlePositionInternal`, lines 334-347) -/

/-- A JavaScript number value: finite, infinite, or `NaN`.  Needed here
because `typeof h === 'number' && !Number.isNaN(h)` distinguishes
infinities (which pass) from `NaN` (which does not). -/
inductive JSNum where
  | fin (q : ℚ)
  | inf (negative : Bool)
  | nan
deriving DecidableEq

/-- The heading update of `handlePositionInternal` (src/app.js lines
338-345): if the device heading is a non-`NaN` number use it; else if a
previous position exists use the bearing from it to the current sample;
else keep the previous `userHeading` (a module variable initialised to
`0`, line 62).  `deviceHeading = none` models an absent
(`null`/`undefined`) heading. -/
def appResolveHeading (fbearing : ℚ → ℚ → ℚ → ℚ → ℚ) (prevHeading : JSNum)
    (deviceHeading : Option JSNum) (lastPos : Option (ℚ × ℚ))
    (clat clon : ℚ) : JSNum :=
  match deviceHeading with
  | some (.fin q) => .fin q
  | some (.inf b) => .inf b
  | _ =>
    match lastPos with
    | some lp => .fin (fbearing lp.1 lp.2 clat clon)
    | none => prevHeading

/-- The heading-resolution policy in the words of the spec (§4.6 step 2)
and of the claim: use `sample.headingDeg` when present and finite, else
derive from `lastPosition` when it exists, else `null` (modelled by
`none`).  Stated as a second definition to compare the code against. -/
def specResolveHeading (fbearing : ℚ → ℚ → ℚ → ℚ → ℚ)
    (deviceHeading : Option JSNum) (lastPos : Option (ℚ × ℚ))
    (clat clon : ℚ) : Option JSNum :=
  match deviceHeading with
  | some (.fin q) => some (.fin q)
  | _ =>
    match lastPos with
    | some lp => some (.fin (fbearing lp.1 lp.2 clat clon))
    | none => none

/-! ## Concrete geometry stand-ins used by witnesses -/

/-- A constant stand-in for the distance kernel. -/
def distConst (c : ℚ) : ℚ → ℚ → ℚ → ℚ → ℚ := fun _ _ _ _ => c

/-- A constant stand-in for the bearing kernel. -/
def bearConst (c : ℚ) : ℚ → ℚ → ℚ → ℚ → ℚ := fun _ _ _ _ => c

/-- A taxicab stand-in for the distance kernel (100 units per degree). -/
def distL1 : ℚ → ℚ → ℚ → ℚ → ℚ :=
  fun alat alon blat blon => (|alat - blat| + |alon - blon|) * 100

/-! ## Lemmas about the alert evaluator -/

theorem ledgerGet_cons (k k1 : CamKey) (t : ℤ) (led : Ledger) :
    ledgerGet k ((k1, t) :: led) = if k1 = k then t else ledgerGet k led := rfl

/-- `evalRadar` in terms of the `qualifies` predicate. -/
theorem evalRadar_eq (fdist fbearing : ℚ → ℚ → ℚ → ℚ → ℚ)
    (ulat ulon heading : ℚ) (now : ℤ) (led : Ledger) (r : Radar) :
    evalRadar fdist fbearing ulat ulon heading now led r
      = if qualifies fdist fbearing ulat ulon heading now led r
        then (some ⟨r, jdist fdist ulat ulon r.lat r.lon⟩, (r.key, now) :: led)
        else (none, led) := by
  unfold evalRadar qualifies
  cases h1 : jgt (jdist fdist ulat ulon r.lat r.lon) 1000 <;>
    cases h2 : jgt (angleDiffJS (jbearingTo fbearing ulat ulon r.lat r.lon) heading) 60 <;>
      by_cases h3 : now - ledgerGet r.key led < 5000
  · have h3' : ¬(5000 ≤ now - ledgerGet r.key led) := by omega
    simp [h1, h2, h3, h3']
  · have h3' : 5000 ≤ now - ledgerGet r.key led := by omega
    simp [h1, h2, h3, h3']
  all_goals simp [h1, h2, h3]

/-- `qualifies` depends on the ledger only through the radar's own key. -/
theorem qualifies_congr (fdist fbearing : ℚ → ℚ → ℚ → ℚ → ℚ)
    (ulat ulon heading : ℚ) (now : ℤ) (led1 led2 : Ledger) (r : Radar)
    (h : ledgerGet r.key led1 = ledgerGet r.key led2) :
    qualifies fdist fbearing ulat ulon heading now led1 r
      = qualifies fdist fbearing ulat ulon heading now led2 r := by
  unfold qualifies
  rw [h]

/-- The alerts of a scan depend on the ledger only through the values at
the scanned radars' keys. -/
theorem detect_fst_congr (fdist fbearing : ℚ → ℚ → ℚ → ℚ → ℚ)
    (ulat ulon heading : ℚ) (now : ℤ) :
    ∀ (radars : List Radar) (led1 led2 : Ledger),
      (∀ r ∈ radars, ledgerGet r.key led1 = ledgerGet r.key led2) →
      (detectApproachingCameras fdist fbearing ulat ulon heading now radars led1).1
        = (detectApproachingCameras fdist fbearing ulat ulon heading now radars led2).1 := by
  intro radars
  induction radars with
  | nil => intro led1 led2 _; rfl
  | cons r rest ih =>
    intro led1 led2 hled
    have hr := hled r (List.mem_cons_self r rest)
    have hq := qualifies_congr fdist fbearing ulat ulon heading now led1 led2 r hr
    simp only [detectApproachingCameras, evalRadar_eq, hq]
    by_cases hqr : qualifies fdist fbearing ulat ulon heading now led2 r = true
    · simp only [hqr, if_true]
      have : ∀ r' ∈ rest,
          ledgerGet r'.key ((r.key, now) :: led1) = ledgerGet r'.key ((r.key, now) :: led2) := by
        intro r' hr'
        rw [ledgerGet_cons, ledgerGet_cons]
        by_cases hk : r.key = r'.key
        · simp [hk]
        · simp [hk, hled r' (List.mem_cons_of_mem r hr')]
      rw [ih _ _ this]
    · simp only [Bool.not_eq_true] at hqr
      simp only [hqr, if_false]
      exact congrArg _ (ih led1 led2 fun r' hr' => hled r' (List.mem_cons_of_mem r hr'))

theorem keyAlertCount_nil (k : CamKey) : keyAlertCount k [] = 0 := rfl

theorem keyAlertCount_cons (k : CamKey) (a : HazardAlert) (as : List HazardAlert) :
    keyAlertCount k (a :: as)
      = keyAlertCount k as + if a.cam.key = k then 1 else 0 := by
  unfold keyAlertCount
  rw [List.countP_cons]
  by_cases h : a.cam.key = k <;> simp [h]

theorem keyAlertCount_append (k : CamKey) (as bs : List HazardAlert) :
    keyAlertCount k (as ++ bs) = keyAlertCount k as + keyAlertCount k bs := by
  unfold keyAlertCount
  exact List.countP_append _ _ _

/-- If key `k` is still inside its throttle window, a scan fires no
alert for `k` and leaves `k`'s ledger entry unchanged. -/
theorem detect_noFire_of_recent (fdist fbearing : ℚ → ℚ → ℚ → ℚ → ℚ)
    (ulat ulon heading : ℚ) (now : ℤ) (k : CamKey) :
    ∀ (radars : List Radar) (led : Ledger), now - ledgerGet k led < 5000 →
      keyAlertCount k (detectApproachingCameras fdist fbearing ulat ulon heading now radars led).1 = 0
        ∧ ledgerGet k (detectApproachingCameras fdist fbearing ulat ulon heading now radars led).2
            = ledgerGet k led := by
  intro radars
  induction radars with
  | nil => intro led h; exact ⟨rfl, rfl⟩
  | cons r rest ih =>
    intro led h
    simp only [detectApproachingCameras, evalRadar_eq]
    by_cases hqr : qualifies fdist fbearing ulat ulon heading now led r = true
    · -- the head fired, so its key is outside the throttle window: it cannot be `k`
      have hkey : r.key ≠ k := by
        intro hk
        have := hqr
        unfold qualifies at this
        rw [hk] at this
        simp only [Bool.and_eq_true, decide_eq_true_eq] at this
        omega
      simp only [hqr, if_true, Option.toList_some, List.singleton_append]
      have hled2 : ledgerGet k ((r.key, now) :: led) = ledgerGet k led := by
        rw [ledgerGet_cons, if_neg hkey]
      have hrec := ih ((r.key, now) :: led) (by rw [hled2]; exact h)
      refine ⟨?_, by rw [hrec.2, hled2]⟩
      rw [keyAlertCount_cons, hrec.1, if_neg hkey]
    · simp only [Bool.not_eq_true] at hqr
      simp only [hqr, if_false, Option.toList_none, List.nil_append]
      exact ih led h

/-- Each scan fires at most one alert per key: either none fire for `k`
and its ledger entry is untouched, or exactly one fires and the entry
becomes `now`. -/
theorem detect_key_cases (fdist fbearing : ℚ → ℚ → ℚ → ℚ → ℚ)
    (ulat ulon heading : ℚ) (now : ℤ) (k : CamKey) :
    ∀ (radars : List Radar) (led : Ledger),
      (keyAlertCount k (detectApproachingCameras fdist fbearing ulat ulon heading now radars led).1 = 0
        ∧ ledgerGet k (detectApproachingCameras fdist fbearing ulat ulon heading now radars led).2
            = ledgerGet k led)
      ∨ (keyAlertCount k (detectApproachingCameras fdist fbearing ulat ulon heading now radars led).1 = 1
        ∧ ledgerGet k (detectApproachingCameras fdist fbearing ulat ulon heading now radars led).2
            = now) := by
  intro radars
  induction radars with
  | nil => intro led; exact Or.inl ⟨rfl, rfl⟩
  | cons r rest ih =>
    intro led
    simp only [detectApproachingCameras, evalRadar_eq]
    by_cases hqr : qualifies fdist fbearing ulat ulon heading now led r = true
    · simp only [hqr, if_true, Option.toList_some, List.singleton_append]
      by_cases hk : r.key = k
      · -- the head fired for `k`: the tail is inside the window and stays silent
        subst hk
        have hrec := detect_noFire_of_recent fdist fbearing ulat ulon heading now r.key
          rest ((r.key, now) :: led) (by rw [ledgerGet_cons, if_pos rfl]; omega)
        refine Or.inr ⟨?_, by rw [hrec.2, ledgerGet_cons, if_pos rfl]⟩
        rw [keyAlertCount_cons, hrec.1, if_pos rfl]
      · have hled2 : ledgerGet k ((r.key, now) :: led) = ledgerGet k led := by
          rw [ledgerGet_cons, if_neg hk]
        rcases ih ((r.key, now) :: led) with ⟨h0, hl⟩ | ⟨h1, hl⟩
        · exact Or.inl ⟨by rw [keyAlertCount_cons, h0, if_neg hk], by rw [hl, hled2]⟩
        · exact Or.inr ⟨by rw [keyAlertCount_cons, h1, if_neg hk], hl⟩
    · simp only [Bool.not_eq_true] at hqr
      simp only [hqr, if_false, Option.toList_none, List.nil_append]
      exact ih led

/-! ## Claim C1: alert policy of the evaluator -/

/-- **C1, counterexample.**  The claim states that every `ingest()` emits
at most one `HazardAlert` (nearest-first, stop at the first qualifying
hazard).  In src/app.js `detectApproachingCameras` has no `break` and no
distance ordering: with two qualifying cameras in range and ahead, a
single call fires two alerts. -/
theorem c1_counterexample_two_alerts_in_one_call :
    1 < (detectApproachingCameras (distConst 100) (bearConst 0) 0 0 0 100000
          [⟨some 1, some 1, 0⟩, ⟨some 2, some 2, 0⟩] []).1.length := by decide

/-- **C1 (amended).**  For every `ingest()` call, the evaluator of
src/app.js emits one `HazardAlert` for *each* hazard that passes the
distance, ahead-angle and cool-down filters, in catalog array order
(not at most one, and with no nearest-first ordering); when the hazards'
throttle keys are pairwise distinct, the emitted alerts are exactly the
hazards qualifying against the pre-call ledger. -/
theorem c1_alert_per_qualifying_hazard (fdist fbearing : ℚ → ℚ → ℚ → ℚ → ℚ)
    (ulat ulon heading : ℚ) (now : ℤ) (led : Ledger) :
    ∀ radars : List Radar, (radars.map Radar.key).Nodup →
      (detectApproachingCameras fdist fbearing ulat ulon heading now radars led).1
        = radars.filterMap (fun r =>
            if qualifies fdist fbearing ulat ulon heading now led r
            then some ⟨r, jdist fdist ulat ulon r.lat r.lon⟩ else none) := by
  intro radars
  induction radars with
  | nil => intro _; rfl
  | cons r rest ih =>
    intro hnd
    rw [List.map_cons, List.nodup_cons] at hnd
    obtain ⟨hk, hnd2⟩ := hnd
    simp only [detectApproachingCameras, evalRadar_eq, List.filterMap_cons]
    by_cases hq : qualifies fdist fbearing ulat ulon heading now led r = true
    · simp only [hq, if_true, Option.toList_some, List.singleton_append]
      have hcongr := detect_fst_congr fdist fbearing ulat ulon heading now rest
        ((r.key, now) :: led) led (by
          intro r2 hr2
          rw [ledgerGet_cons, if_neg]
          intro he
          exact hk (he ▸ List.mem_map_of_mem Radar.key hr2))
      rw [hcongr, ih hnd2]
    · simp only [Bool.not_eq_true] at hq
      simp only [hq, if_false, Option.toList_none, List.nil_append]
      exact ih hnd2

/-- **C1, witness** for the amended theorem at a concrete two-camera
catalog: both qualifying cameras alert, in array order. -/
theorem c1_alert_per_qualifying_hazard_witness :
    (([⟨some 1, some 1, 0⟩, ⟨some 2, some 2, 0⟩] : List Radar).map Radar.key).Nodup
      ∧ (detectApproachingCameras (distConst 100) (bearConst 0) 0 0 0 100000
          [⟨some 1, some 1, 0⟩, ⟨some 2, some 2, 0⟩] []).1
        = [⟨⟨some 1, some 1, 0⟩, some 100⟩, ⟨⟨some 2, some 2, 0⟩, some 100⟩] := by
  refine ⟨by decide, ?_⟩
  rw [c1_alert_per_qualifying_hazard (distConst 100) (bearConst 0) 0 0 0 100000 []
    [⟨some 1, some 1, 0⟩, ⟨some 2, some 2, 0⟩] (by decide)]
  decide

/-! ## Claim C5: per-hazard throttle -/

/-- **C5.**  Two evaluator calls whose timestamps are less than the
per-hazard throttle window (5000 ms) apart emit at most one
`HazardAlert` in total for any fixed hazard key, whatever the catalog,
positions, headings and initial ledger: a hazard whose last-alert
timestamp is less than `ALERT_THROTTLE_MS` in the past is rejected. -/
theorem c5_per_hazard_throttle_two_calls (fdist fbearing : ℚ → ℚ → ℚ → ℚ → ℚ)
    (radars : List Radar) (k : CamKey) (led : Ledger) (s1 s2 : CallIn)
    (ht : s2.now - s1.now < 5000) :
    keyAlertCount k (runCalls fdist fbearing radars [s1, s2] led).1 ≤ 1 := by
  have e : (runCalls fdist fbearing radars [s1, s2] led).1
      = (detectApproachingCameras fdist fbearing s1.ulat s1.ulon s1.heading s1.now radars led).1
        ++ ((detectApproachingCameras fdist fbearing s2.ulat s2.ulon s2.heading s2.now radars
              (detectApproachingCameras fdist fbearing s1.ulat s1.ulon s1.heading s1.now radars led).2).1
          ++ []) := by
    simp only [runCalls]
  rw [e, keyAlertCount_append, keyAlertCount_append, keyAlertCount_nil]
  rcases detect_key_cases fdist fbearing s1.ulat s1.ulon s1.heading s1.now k radars led
    with ⟨h0, _⟩ | ⟨h1, hl⟩
  · rcases detect_key_cases fdist fbearing s2.ulat s2.ulon s2.heading s2.now k radars
      (detectApproachingCameras fdist fbearing s1.ulat s1.ulon s1.heading s1.now radars led).2
      with ⟨h0', _⟩ | ⟨h1', _⟩ <;> omega
  · have h2 := detect_noFire_of_recent fdist fbearing s2.ulat s2.ulon s2.heading s2.now k radars
      (detectApproachingCameras fdist fbearing s1.ulat s1.ulon s1.heading s1.now radars led).2
      (by rw [hl]; omega)
    omega

/-- **C5, witness**: one fixed camera dead ahead at 100 m, two calls
1000 ms apart. -/
theorem c5_per_hazard_throttle_two_calls_witness :
    ((⟨0, 0, 0, 101000⟩ : CallIn).now - (⟨0, 0, 0, 100000⟩ : CallIn).now < 5000)
      ∧ keyAlertCount (some 1, some 1)
          (runCalls (distConst 100) (bearConst 0) [⟨some 1, some 1, 0⟩]
            [⟨0, 0, 0, 100000⟩, ⟨0, 0, 0, 101000⟩] []).1 ≤ 1 :=
  ⟨by decide,
    c5_per_hazard_throttle_two_calls (distConst 100) (bearConst 0) [⟨some 1, some 1, 0⟩]
      (some 1, some 1) [] ⟨0, 0, 0, 100000⟩ ⟨0, 0, 0, 101000⟩ (by decide)⟩

/-! ## Claim C6: the ahead filter rejects hazards behind the user -/

/-- If the computed angular difference for the coordinates behind key
`(some la, some lo)` exceeds 60°, no alert with that key is emitted by a
scan (the ahead filter at src/app.js line 414 rejects the camera, for
every array entry carrying those coordinates). -/
theorem detect_no_alert_when_not_ahead (fdist fbearing : ℚ → ℚ → ℚ → ℚ → ℚ)
    (ulat ulon heading : ℚ) (now : ℤ) (la lo : ℚ)
    (h : jgt (angleDiffJS (jbearingTo fbearing ulat ulon (some la) (some lo)) heading) 60 = true) :
    ∀ (radars : List Radar) (led : Ledger),
      keyAlertCount (some la, some lo)
        (detectApproachingCameras fdist fbearing ulat ulon heading now radars led).1 = 0 := by
  intro radars
  induction radars with
  | nil => intro led; rfl
  | cons r rest ih =>
    intro led
    simp only [detectApproachingCameras, evalRadar_eq]
    by_cases hq : qualifies fdist fbearing ulat ulon heading now led r = true
    · have hkey : r.key ≠ ((some la, some lo) : CamKey) := by
        intro hkeq
        have hlat : r.lat = some la := congrArg Prod.fst hkeq
        have hlon : r.lon = some lo := congrArg Prod.snd hkeq
        unfold qualifies at hq
        rw [hlat, hlon, h] at hq
        simp at hq
      simp only [hq, if_true, Option.toList_some, List.singleton_append]
      rw [keyAlertCount_cons, ih ((r.key, now) :: led), if_neg hkey]
    · simp only [Bool.not_eq_true] at hq
      simp only [hq, if_false, Option.toList_none, List.nil_append]
      exact ih led

/-- **C6.**  Over any sequence of evaluator calls with known headings, a
hazard whose computed angular difference to the heading is exactly 180°
(exactly behind the user) at each call never produces a `HazardAlert`,
regardless of its distance, the catalog, or the ledger state. -/
theorem c6_behind_hazard_never_alerts (fdist fbearing : ℚ → ℚ → ℚ → ℚ → ℚ)
    (radars : List Radar) (la lo : ℚ) :
    ∀ (calls : List CallIn) (led : Ledger),
      (∀ c ∈ calls,
        angleDiffJS (jbearingTo fbearing c.ulat c.ulon (some la) (some lo)) c.heading
          = some 180) →
      keyAlertCount (some la, some lo) (runCalls fdist fbearing radars calls led).1 = 0 := by
  intro calls
  induction calls with
  | nil => intro led _; rfl
  | cons c cs ih =>
    intro led h
    have hc := h c (List.mem_cons_self c cs)
    have h1 := detect_no_alert_when_not_ahead fdist fbearing c.ulat c.ulon c.heading c.now la lo
      (by rw [hc]; decide) radars led
    simp only [runCalls, keyAlertCount_append]
    rw [h1, ih _ (fun c2 hc2 => h c2 (List.mem_cons_of_mem c hc2))]

/-- **C6, witness**: a camera 100 m away whose bearing is 180° while the
user heads 0° (exactly behind) across one call: no alert. -/
theorem c6_behind_hazard_never_alerts_witness :
    (angleDiffJS (jbearingTo (bearConst 180) 0 0 (some 1) (some 1)) 0 = some 180)
      ∧ keyAlertCount (some 1, some 1)
          (runCalls (distConst 100) (bearConst 180) [⟨some 1, some 1, 0⟩]
            [⟨0, 0, 0, 100000⟩] []).1 = 0 := by
  refine ⟨by decide, ?_⟩
  exact c6_behind_hazard_never_alerts (distConst 100) (bearConst 180) [⟨some 1, some 1, 0⟩]
    1 1 [⟨0, 0, 0, 100000⟩] [] (by
      intro c hc
      rw [List.mem_singleton] at hc
      subst hc
      decide)

/-! ## Lemmas about the visibility window -/

theorem refreshScan_cons_pos (fdist : ℚ → ℚ → ℚ → ℚ → ℚ) (ulat ulon : ℚ)
    (r : Radar) (rest : List Radar) (i : ℕ) (vis : Finset ℕ)
    (hv : camVisible fdist ulat ulon r = true) :
    refreshScan fdist ulat ulon (r :: rest) i vis
      = (insert i (refreshScan fdist ulat ulon rest (i + 1) (insert i vis)).1,
          (refreshScan fdist ulat ulon rest (i + 1) (insert i vis)).2) := by
  simp [refreshScan, hv]

theorem refreshScan_cons_neg (fdist : ℚ → ℚ → ℚ → ℚ → ℚ) (ulat ulon : ℚ)
    (r : Radar) (rest : List Radar) (i : ℕ) (vis : Finset ℕ)
    (hv : camVisible fdist ulat ulon r = false) :
    refreshScan fdist ulat ulon (r :: rest) i vis
      = refreshScan fdist ulat ulon rest (i + 1) (vis.erase i) := by
  simp [refreshScan, hv]

/-- The `visibleIndices` set built by the scan loop holds exactly the
(shifted) indices of the radars passing the visibility test. -/
theorem refreshScan_fst_mem (fdist : ℚ → ℚ → ℚ → ℚ → ℚ) (ulat ulon : ℚ) :
    ∀ (radars : List Radar) (i : ℕ) (vis : Finset ℕ) (m : ℕ),
      m ∈ (refreshScan fdist ulat ulon radars i vis).1
        ↔ ∃ j r, radars[j]? = some r ∧ m = i + j
            ∧ camVisible fdist ulat ulon r = true := by
  intro radars
  induction radars with
  | nil =>
    intro i vis m
    simp [refreshScan]
  | cons r rest ih =>
    intro i vis m
    by_cases hv : camVisible fdist ulat ulon r = true
    · rw [refreshScan_cons_pos fdist ulat ulon r rest i vis hv]
      simp only [Finset.mem_insert]
      rw [ih (i + 1) (insert i vis) m]
      constructor
      · rintro (rfl | ⟨j, r2, hj, rfl, hcv⟩)
        · exact ⟨0, r, by simp, by omega, hv⟩
        · exact ⟨j + 1, r2, by simpa using hj, by omega, hcv⟩
      · rintro ⟨j, r2, hj, rfl, hcv⟩
        cases j with
        | zero => left; omega
        | succ j2 => right; exact ⟨j2, r2, by simpa using hj, by omega, hcv⟩
    · rw [Bool.not_eq_true] at hv
      rw [refreshScan_cons_neg fdist ulat ulon r rest i vis hv]
      rw [ih (i + 1) (vis.erase i) m]
      constructor
      · rintro ⟨j, r2, hj, rfl, hcv⟩
        exact ⟨j + 1, r2, by simpa using hj, by omega, hcv⟩
      · rintro ⟨j, r2, hj, rfl, hcv⟩
        cases j with
        | zero =>
          rw [List.getElem?_cons_zero, Option.some_inj] at hj
          rw [← hj] at hcv
          exact absurd hcv (by simp [hv])
        | succ j2 => exact ⟨j2, r2, by simpa using hj, by omega, hcv⟩

/-- Indices below the current loop counter are untouched by the rest of
the scan. -/
theorem refreshScan_snd_low (fdist : ℚ → ℚ → ℚ → ℚ → ℚ) (ulat ulon : ℚ) :
    ∀ (radars : List Radar) (i : ℕ) (vis : Finset ℕ) (m : ℕ), m < i →
      (m ∈ (refreshScan fdist ulat ulon radars i vis).2 ↔ m ∈ vis) := by
  intro radars
  induction radars with
  | nil =>
    intro i vis m _
    simp [refreshScan]
  | cons r rest ih =>
    intro i vis m hm
    by_cases hv : camVisible fdist ulat ulon r = true
    · rw [refreshScan_cons_pos fdist ulat ulon r rest i vis hv]
      rw [ih (i + 1) (insert i vis) m (by omega), Finset.mem_insert]
      constructor
      · rintro (rfl | h)
        · omega
        · exact h
      · exact fun h => Or.inr h
    · rw [Bool.not_eq_true] at hv
      rw [refreshScan_cons_neg fdist ulat ulon r rest i vis hv]
      rw [ih (i + 1) (vis.erase i) m (by omega), Finset.mem_erase]
      constructor
      · exact fun h => h.2
      · exact fun h => ⟨by omega, h⟩

/-- A radar passing the visibility test has its index in the marker map
after the scan, whatever the prior state. -/
theorem refreshScan_snd_of_visible (fdist : ℚ → ℚ → ℚ → ℚ → ℚ) (ulat ulon : ℚ) :
    ∀ (radars : List Radar) (i : ℕ) (vis : Finset ℕ) (j : ℕ) (r : Radar),
      radars[j]? = some r → camVisible fdist ulat ulon r = true →
      (i + j) ∈ (refreshScan fdist ulat ulon radars i vis).2 := by
  intro radars
  induction radars with
  | nil =>
    intro i vis j r hj _
    simp at hj
  | cons r0 rest ih =>
    intro i vis j r hj hcv
    cases j with
    | zero =>
      rw [List.getElem?_cons_zero, Option.some_inj] at hj
      rw [refreshScan_cons_pos fdist ulat ulon r0 rest i vis (hj ▸ hcv)]
      rw [refreshScan_snd_low fdist ulat ulon rest (i + 1) (insert i vis) (i + 0) (by omega)]
      simp
    | succ j2 =>
      rw [List.getElem?_cons_succ] at hj
      by_cases hv : camVisible fdist ulat ulon r0 = true
      · rw [refreshScan_cons_pos fdist ulat ulon r0 rest i vis hv]
        have := ih (i + 1) (insert i vis) j2 r hj hcv
        have harith : i + 1 + j2 = i + (j2 + 1) := by omega
        rw [harith] at this
        exact this
      · rw [Bool.not_eq_true] at hv
        rw [refreshScan_cons_neg fdist ulat ulon r0 rest i vis hv]
        have := ih (i + 1) (vis.erase i) j2 r hj hcv
        have harith : i + 1 + j2 = i + (j2 + 1) := by omega
        rw [harith] at this
        exact this

/-! ## Claim C3: the visible set after a refresh -/

/-- **C3, counterexample.**  The claim requires the visible set to equal
the within-radius set for *every* catalog including an empty one.  The
early return `if (!radars || !radars.length) return;` (src/app.js line
261) skips all cleanup for an empty catalog, so a stale visible set
(left over from a catalog hot-swap) survives: index `0` stays visible
although no hazard exists at all. -/
theorem c3_counterexample_empty_catalog_keeps_stale_markers :
    0 ∈ refreshVisibleMarkers (distConst 0) 0 0 [] {0}
      ∧ (([] : List Radar))[0]? = none := by decide

/-- **C3 (amended).**  After a refresh at position `p` against a
non-empty catalog — or an empty catalog with an empty prior visible set,
which covers every state reachable without hot-swapping to an empty
catalog — the visible set is exactly the set of hazard indices whose
distance to `p` satisfies `d <= CAMERA_VISIBLE_M` (and a hazard with
non-finite coordinates is never in it, its distance comparing false). -/
theorem c3_visible_set_exact (fdist : ℚ → ℚ → ℚ → ℚ → ℚ) (ulat ulon : ℚ)
    (radars : List Radar) (vis : Finset ℕ)
    (hempty : radars.isEmpty = true → vis = ∅) :
    ∀ m, m ∈ refreshVisibleMarkers fdist ulat ulon radars vis
      ↔ ∃ r, radars[m]? = some r ∧ camVisible fdist ulat ulon r = true := by
  intro m
  cases radars with
  | nil =>
    rw [hempty rfl]
    simp [refreshVisibleMarkers]
  | cons r0 rest =>
    simp only [refreshVisibleMarkers, List.isEmpty_cons, if_false, Bool.false_eq_true,
      Finset.mem_filter]
    constructor
    · rintro ⟨_, hfst⟩
      obtain ⟨j, r, hj, hm0, hcv⟩ :=
        (refreshScan_fst_mem fdist ulat ulon (r0 :: rest) 0 vis m).1 hfst
      have hjm : j = m := by omega
      subst hjm
      exact ⟨r, hj, hcv⟩
    · rintro ⟨r, hj, hcv⟩
      refine ⟨?_, ?_⟩
      · have := refreshScan_snd_of_visible fdist ulat ulon (r0 :: rest) 0 vis m r hj hcv
        simpa using this
      · exact (refreshScan_fst_mem fdist ulat ulon (r0 :: rest) 0 vis m).2
          ⟨m, r, hj, by omega, hcv⟩

/-- **C3, witness** for the amended theorem: one camera 100 m away is in
the visible set after a refresh, even from a garbage prior state. -/
theorem c3_visible_set_exact_witness :
    0 ∈ refreshVisibleMarkers (distConst 100) 0 0 [⟨some 1, some 1, 0⟩] {5} :=
  (c3_visible_set_exact (distConst 100) 0 0 [⟨some 1, some 1, 0⟩] {5}
    (fun h => absurd h (by decide)) 0).2 ⟨⟨some 1, some 1, 0⟩, rfl, by decide⟩

/-! ## Claim C4: corridor membership test and progress fraction -/

/-- **C4.**  For a corridor `z` and position `p` (with a non-degenerate
corridor, `total > 0`, so that rational division mirrors the JS float
division), the tracker classifies `p` as on the corridor iff
`gap < 60 ∧ dStart ≤ total + 30`, and then reports
`pct = clamp(dStart / total, 0, 1)`. -/
theorem c4_corridor_membership_and_progress (fdist : ℚ → ℚ → ℚ → ℚ → ℚ)
    (z : AvgZone) (plat plon : ℚ) (_htotal : 0 < zoneTotal fdist z) :
    (onCorridor fdist z plat plon = true
        ↔ zoneGap fdist z plat plon < 60
          ∧ zoneDStart fdist z plat plon ≤ zoneTotal fdist z + 30)
      ∧ detectAvgZoneProgress fdist [z] plat plon
          = if onCorridor fdist z plat plon
            then some (z, clampQ (zoneDStart fdist z plat plon / zoneTotal fdist z) 0 1)
            else none := by
  constructor
  · unfold onCorridor
    rw [Bool.and_eq_true, decide_eq_true_eq, decide_eq_true_eq]
  · by_cases h : onCorridor fdist z plat plon = true
    · simp [detectAvgZoneProgress, zonePct, h]
    · rw [Bool.not_eq_true] at h
      simp [detectAvgZoneProgress, h]

/-- **C4, witness**: taxicab geometry, corridor from `(0,0)` to `(1,0)`
of length 100, position halfway along it: on corridor with `pct = 1/2`. -/
theorem c4_corridor_membership_and_progress_witness :
    0 < zoneTotal distL1 ⟨0, 0, 1, 0, 50⟩
      ∧ ((onCorridor distL1 ⟨0, 0, 1, 0, 50⟩ (1/2) 0 = true
            ↔ zoneGap distL1 ⟨0, 0, 1, 0, 50⟩ (1/2) 0 < 60
              ∧ zoneDStart distL1 ⟨0, 0, 1, 0, 50⟩ (1/2) 0
                  ≤ zoneTotal distL1 ⟨0, 0, 1, 0, 50⟩ + 30)
          ∧ detectAvgZoneProgress distL1 [⟨0, 0, 1, 0, 50⟩] (1/2) 0
              = if onCorridor distL1 ⟨0, 0, 1, 0, 50⟩ (1/2) 0
                then some (⟨0, 0, 1, 0, 50⟩,
                  clampQ (zoneDStart distL1 ⟨0, 0, 1, 0, 50⟩ (1/2) 0
                    / zoneTotal distL1 ⟨0, 0, 1, 0, 50⟩) 0 1)
                else none) :=
  ⟨by decide,
    c4_corridor_membership_and_progress distL1 ⟨0, 0, 1, 0, 50⟩ (1/2) 0 (by decide)⟩

/-! ## Claim C10: the earliest listed matching corridor wins -/

/-- **C10.**  When the position satisfies the corridor membership test
for more than one corridor, the zone scan selects the corridor that
appears earliest in the catalog array (the loop breaks at the first
match); later-listed matching corridors are ignored. -/
theorem c10_first_matching_corridor_wins (fdist : ℚ → ℚ → ℚ → ℚ → ℚ)
    (plat plon : ℚ) :
    ∀ (pre : List AvgZone) (z : AvgZone) (post : List AvgZone),
      (∀ z1 ∈ pre, onCorridor fdist z1 plat plon = false) →
      onCorridor fdist z plat plon = true →
      detectAvgZoneProgress fdist (pre ++ z :: post) plat plon
        = some (z, zonePct fdist z plat plon) := by
  intro pre
  induction pre with
  | nil =>
    intro z post _ hz
    simp [detectAvgZoneProgress, hz]
  | cons z1 rest ih =>
    intro z post hpre hz
    have h1 : onCorridor fdist z1 plat plon = false := hpre z1 (List.mem_cons_self z1 rest)
    rw [List.cons_append]
    simp only [detectAvgZoneProgress, h1, Bool.false_eq_true, if_false]
    exact ih z post (fun z2 hz2 => hpre z2 (List.mem_cons_of_mem z1 hz2)) hz

/-- **C10, witness**: two corridors over the same segment (different
limits), both matched by the position; the first one in the array is
reported, the second produces nothing. -/
theorem c10_first_matching_corridor_wins_witness :
    onCorridor distL1 ⟨0, 0, 1, 0, 70⟩ (1/2) 0 = true
      ∧ detectAvgZoneProgress distL1 [⟨0, 0, 1, 0, 50⟩, ⟨0, 0, 1, 0, 70⟩] (1/2) 0
          = some (⟨0, 0, 1, 0, 50⟩, zonePct distL1 ⟨0, 0, 1, 0, 50⟩ (1/2) 0) :=
  ⟨by decide,
    c10_first_matching_corridor_wins distL1 (1/2) 0 [] ⟨0, 0, 1, 0, 50⟩ [⟨0, 0, 1, 0, 70⟩]
      (fun z1 hz1 => absurd hz1 (List.not_mem_nil z1)) (by decide)⟩

/-! ## Claim C2: zone-exit average speed -/

/-- **C2.**  On every InZone-to-Idle transition of the Average-Zone
Tracker (no corridor matches the new position while a session is
active), the emitted `ZoneExited` event carries `avgKmh` equal to the
arithmetic mean of the collected speed samples (`0` if none) and the
session — including its sample buffer — is cleared.  In particular,
entering the corridor `(0,0)-(0,10)`, sampling speeds 50, 60 and 70
while inside, then exiting yields `ZoneExited.avgKmh = 60` and an empty
session. -/
theorem c2_zone_exit_mean_speed :
    (∀ (fdist : ℚ → ℚ → ℚ → ℚ → ℚ) (zones : List AvgZone)
        (plat plon speed : ℚ) (now : ℤ) (s : AvgSession),
        findZoneIdx fdist zones plat plon = none →
        avgZoneStep fdist zones plat plon speed now (some s)
          = ([ZoneEvent.exited s.corridorIdx (meanKmh s.speedSamples) s.limitKmh], none))
      ∧ runAvgZone distL1 [⟨0, 0, 0, 10, 90⟩]
          [(0, 1, 40, 1000), (0, 2, 50, 2000), (0, 3, 60, 3000),
            (0, 4, 70, 4000), (5, 5, 80, 5000)] none
        = ([ZoneEvent.entered 0 90,
            ZoneEvent.progress (1/5) 50 90 (-40),
            ZoneEvent.progress (3/10) 60 90 (-30),
            ZoneEvent.progress (2/5) 70 90 (-20),
            ZoneEvent.exited 0 60 90], none) := by
  constructor
  · intro fdist zones plat plon speed now s h
    simp [avgZoneStep, h]
  · decide

/-- **C2, witness** for the transition property: a session holding
samples `[50, 70]` exits (no corridor in the catalog) with the mean 60
and a cleared session. -/
theorem c2_zone_exit_mean_speed_witness :
    findZoneIdx distL1 [] 0 0 = none
      ∧ avgZoneStep distL1 [] 0 0 55 5 (some ⟨3, 50, 0, [50, 70]⟩)
          = ([ZoneEvent.exited 3 60 50], none) :=
  ⟨rfl,
    (c2_zone_exit_mean_speed.1 distL1 [] 0 0 55 5 ⟨3, 50, 0, [50, 70]⟩ rfl).trans
      (by decide)⟩

/-! ## Claim C7: permissive fallback when no heading is available -/

/-- With no device heading and no previous position, the ahead filter of
the scan never changes the outcome: `findNearestGo` is independent of
the bearing function. -/
theorem findNearestGo_headingless_congr (fdistKm fb1 fb2 : ℚ → ℚ → ℚ → ℚ → ℚ)
    (ulat ulon limitKm : ℚ) :
    ∀ (radars : List Radar007) (acc : Option (Radar007 × ℚ)),
      findNearestGo fdistKm fb1 ulat ulon none none limitKm radars acc
        = findNearestGo fdistKm fb2 ulat ulon none none limitKm radars acc := by
  intro radars
  induction radars with
  | nil => intro acc; rfl
  | cons r rest ih =>
    intro acc
    simp only [findNearestGo, isRadarAhead]
    by_cases hd : limitKm < fdistKm ulat ulon r.lat r.lon
    · simp only [hd, if_true]
      exact ih acc
    · simp only [hd, if_false]
      by_cases hacc : (match acc with | none => true | some p => decide (fdistKm ulat ulon r.lat r.lon < p.2)) = true
      · simp only [hacc, Bool.not_true, if_true, if_false]
        exact ih (some (r, fdistKm ulat ulon r.lat r.lon))
      · simp only [Bool.not_eq_true] at hacc
        simp only [hacc, Bool.not_true, if_false]
        exact ih acc

/-- **C7.**  When no heading is available (device heading absent and no
previous position to derive one from), the part_007 alert evaluator
treats every hazard as ahead: `isRadarAhead` is constantly `true`, and
consequently `findNearestRelevantRadar` gives the same result as it
would under any other bearing interpretation — the missing heading never
suppresses an in-range hazard. -/
theorem c7_missing_heading_is_permissive :
    (∀ (fbearing : ℚ → ℚ → ℚ → ℚ → ℚ) (ulat ulon rlat rlon : ℚ),
        isRadarAhead fbearing ulat ulon none none rlat rlon = true)
      ∧ (∀ (fdistKm fb1 fb2 : ℚ → ℚ → ℚ → ℚ → ℚ) (ulat ulon limitKm : ℚ)
          (radars : List Radar007),
          findNearestRelevantRadar fdistKm fb1 ulat ulon none none limitKm radars
            = findNearestRelevantRadar fdistKm fb2 ulat ulon none none limitKm radars) := by
  constructor
  · intro fbearing ulat ulon rlat rlon
    rfl
  · intro fdistKm fb1 fb2 ulat ulon limitKm radars
    exact findNearestGo_headingless_congr fdistKm fb1 fb2 ulat ulon limitKm radars none

/-! ## Claim C8: heading resolution priority -/

/-- **C8, counterexample.**  The claim says that with no device heading
and no previous position the resolved heading is `null`.  In src/app.js
`userHeading` simply keeps its previous value (initialised to `0`,
line 62), so the first sample without a device heading is evaluated
against heading `0`, not `null`: the code's resolution differs from the
claimed policy at this input. -/
theorem c8_counterexample_heading_sticky_not_null :
    some (appResolveHeading (bearConst 0) (.fin 0) none none 0 0)
      ≠ specResolveHeading (bearConst 0) none none 0 0 := by decide

/-- **C8 (amended).**  The heading used downstream is resolved as: the
sample's own heading whenever it is a non-`NaN` number (so a finite
device heading is always used unchanged, but infinities would be used
too); otherwise the bearing from the previous position to the sample
when a previous position exists; otherwise the *previously resolved
heading is kept* (initially `0`) — never `null`. -/
theorem c8_heading_resolution (fbearing : ℚ → ℚ → ℚ → ℚ → ℚ) (prev : JSNum)
    (lastPos : Option (ℚ × ℚ)) (clat clon : ℚ) :
    (∀ q : ℚ, appResolveHeading fbearing prev (some (.fin q)) lastPos clat clon = .fin q)
      ∧ (∀ b : Bool, appResolveHeading fbearing prev (some (.inf b)) lastPos clat clon = .inf b)
      ∧ (∀ lp : ℚ × ℚ, appResolveHeading fbearing prev (some .nan) (some lp) clat clon
          = .fin (fbearing lp.1 lp.2 clat clon))
      ∧ (∀ lp : ℚ × ℚ, appResolveHeading fbearing prev none (some lp) clat clon
          = .fin (fbearing lp.1 lp.2 clat clon))
      ∧ appResolveHeading fbearing prev (some .nan) none clat clon = prev
      ∧ appResolveHeading fbearing prev none none clat clon = prev :=
  ⟨fun _ => rfl, fun _ => rfl, fun _ => rfl, fun _ => rfl, rfl, rfl⟩

/-! ## Claim C9: hazards with non-finite coordinates -/

/-- **C9.**  A hazard with a non-finite latitude is indeed never in the
visible set (its distance comparison `d <= 10000` is false on `NaN`),
but it is *not* inert for the alert evaluator: every reject-style guard
(`d > 1000`, `angleDiff > 60`) also compares false on `NaN`, so the
camera falls through all filters and fires a `HazardAlert` (with `NaN`
distance) on an ordinary call — contradicting both the claim and the
code's own comment "only alert if camera within ALERT_DISTANCE_M"
(src/app.js line 393). -/
theorem c9_nonfinite_hazard_alerts_but_is_invisible :
    (detectApproachingCameras (distConst 100) (bearConst 0) 0 0 0 100000
        [⟨none, some 5, 2⟩] []).1
      = [⟨⟨none, some 5, 2⟩, none⟩]
      ∧ refreshVisibleMarkers (distConst 100) 0 0 [⟨none, some 5, 2⟩] ∅ = ∅ := by
  decide

end RadarNav

